import Mathlib

/-!
# Secondary-core bring-up handshake of the NPCM7xx platform

A shallow embedding of `arch/arm/mach-npcm/platsmp.c` and the properties of its
bring-up handshake.

## The embedding

The C file keeps its state in file-scope variables (`gcr_base`, `scu_base`,
`boot_lock`), in the kernel-wide `pen_release` cell and in memory-mapped
registers.  Here that state is one record, `State`, passed explicitly.  Every
hardware-visible action (barrier, cache maintenance, MMIO write, wake signal,
lock operation, delay, read of `pen_release`) is appended to `State.trace` in
program order, so that statements about ordering and about "nothing happened"
can be made.  Reads of the tick counter act on nothing; they are counted in
`State.jreads` and leave no entry in the trace.

Two things the code reads are controlled by other actors: the `jiffies` tick
counter and the shared cell `pen_release`.  They are supplied by an `Env`:
the value of the tick counter at each successive read, and what other cores
did to `pen_release` before each successive read.

Items the file uses without defining them (`EIO`, `HZ`, `cpu_logical_map`,
the physical address of `npcm7xx_secondary_startup`, the device-tree lookups)
are fields of `Kernel` and `DeviceTree`.  Words are 32 bits wide: `jiffies`
and `timeout` wrap, and `time_before` compares them as the kernel does.

The poll loop of `npcm7xx_smp_boot_secondary` need not end (the clock is the
environment's), so the function takes a bound on the number of loop tests and
returns `none` when the bound is reached; statements that the call returns
exhibit a bound that suffices.

## Contents

* The functions of the C file, run by one core: `npcm7xx_write_pen_release`,
  `npcm7xx_smp_secondary_init`, `npcm7xx_smp_boot_secondary`,
  `npcm7xx_wakeup_secondary`, `npcm7xx_smp_prepare_cpus`.
* The same two handshake functions one statement at a time (`boot_step`,
  `init_step`), interleaved by a schedule (`run`), with the proof that they
  agree with the functions above (`boot_steps_refine`, `init_steps_refine`).
* The properties `C1` to `C10`.
-/

namespace Npcm

/-! ## Machine words -/

/-- Number of values of a 32-bit word; `unsigned long`, `unsigned int`, `u32`
and `int` are all 32 bits wide on 32-bit ARM. -/
def WORD : Nat := 4294967296

/-- Conversion of a `u32` to a C `int` (two's complement). -/
def toInt32 (v : Nat) : Int :=
  if v % WORD < 2147483648 then ((v % WORD : Nat) : Int)
  else ((v % WORD : Nat) : Int) - 4294967296

/-- Modelled from the spec: `time_before` is a macro of `linux/jiffies.h`, which
is not part of the sources at hand.  The spec's "before the timeout deadline"
test on the tick counter, taken as the kernel takes it on an `unsigned long`
that wraps: `a` is before `b` when the 32-bit difference `a - b`, read as a
signed number, is negative. -/
def time_before (a b : Nat) : Bool :=
  decide (2147483648 ≤ (a % WORD + WORD - b % WORD) % WORD)

/-! ## Data model -/

/-- The constant `NPCM7XX_SCRPAD_REG`: `#define NPCM7XX_SCRPAD_REG 0x13c`. -/
def NPCM7XX_SCRPAD_REG : Nat := 0x13c

/-- Hardware-visible actions, in the vocabulary of the C file. -/
inductive Effect where
  /-- The action `spin_lock(&boot_lock)` completed. -/
  | spin_lock
  /-- The action `spin_unlock(&boot_lock)`. -/
  | spin_unlock
  /-- The action `pen_release = val`. -/
  | store_pen (val : Int)
  /-- The action `smp_wmb()`, the store-store barrier. -/
  | smp_wmb
  /-- The action `smp_rmb()`, the load-load barrier. -/
  | smp_rmb
  /-- The action `__cpuc_flush_dcache_area(&pen_release, sizeof(pen_release))`. -/
  | flush_dcache_pen
  /-- The action `outer_clean_range(__pa(&pen_release), __pa(&pen_release + 1))`. -/
  | outer_clean_pen
  /-- The action `iowrite32(val, addr)`. -/
  | iowrite32 (val addr : Nat)
  /-- The action `arch_send_wakeup_ipi_mask(cpumask_of(cpu))`. -/
  | wakeup_ipi (cpu : Nat)
  /-- A read of `pen_release` that returned `val`. -/
  | read_pen (val : Int)
  /-- The action `udelay(us)`. -/
  | udelay (us : Nat)
  /-- The action `dsb_sev()`. -/
  | dsb_sev
  /-- The action `mb()`. -/
  | mb
  /-- The action `scu_enable(base)`. -/
  | scu_enable (base : Nat)
  /-- The action `pr_err(fmt, ...)`, with its format string. -/
  | pr_err (msg : String)
  deriving DecidableEq, Repr

/-- The state the C file reads and writes.

* `gcr_base`, `scu_base`: the two `void __iomem *` variables; `0` is `NULL`.
* `pen_release`: the shared `int` cell.
* `boot_lock`: `true` when the spinlock is held.
* `mmio`: contents of the memory-mapped 32-bit registers, by address.
* `jreads`, `preads`: how many reads of `jiffies` and of `pen_release` have
  been made so far (they index the environment).
* `trace`: the actions performed so far, oldest first. -/
structure State where
  gcr_base : Nat
  scu_base : Nat
  pen_release : Int
  boot_lock : Bool
  mmio : Nat → Nat
  jreads : Nat
  preads : Nat
  trace : List Effect

/-- What the rest of the kernel provides to this file. -/
structure Kernel where
  /-- The errno constant `EIO`. -/
  eio : Nat
  /-- Ticks per second, `HZ`. -/
  HZ : Nat
  /-- The value of `cpu_logical_map(cpu)`, a table of `u32`. -/
  cpu_logical_map : Nat → Nat
  /-- The value of `virt_to_phys(npcm7xx_secondary_startup)`. -/
  startup_phys : Nat

/-- What other actors do while the code runs.

* `clock n` is the tick count at the moment of the `n`-th read of `jiffies`
  (an unbounded count; the code sees it modulo `2^32`).
* `pen n` is `some v` when, by the time of the `n`-th read of `pen_release`,
  another core has stored `v` there since this core last accessed it, and
  `none` when nobody has. -/
structure Env where
  clock : Nat → Nat
  pen : Nat → Option Int

/-- Device-tree lookups used by `npcm7xx_smp_prepare_cpus`. -/
structure DeviceTree where
  /-- The call `of_find_compatible_node(NULL, NULL, compat)`: the node, if any. -/
  of_find_compatible_node : String → Option Nat
  /-- The call `of_iomap(np, index)`: the mapped address, `0` on failure. -/
  of_iomap : Nat → Nat → Nat

/-! ## Primitive actions -/

/-- Append an action to the trace. -/
def emit (e : Effect) (s : State) : State :=
  { s with trace := s.trace ++ [e] }

/-- Reading `jiffies`: the low 32 bits of the current tick count. -/
def read_jiffies (env : Env) (s : State) : Nat × State :=
  (env.clock s.jreads % WORD, { s with jreads := s.jreads + 1 })

/-- Reading the volatile `pen_release`: whatever another core stored last, or
this core's own last value. -/
def read_pen_release (env : Env) (s : State) : Int × State :=
  let v := (env.pen s.preads).getD s.pen_release
  (v, emit (Effect.read_pen v) { s with pen_release := v, preads := s.preads + 1 })

/-- Modelled from the spec: `spin_lock` is kernel code outside the sources at
hand; "`acquire()`/`release()` standard mutual exclusion".  A free lock is
taken; a held lock is only ever released by its holder, so with the lock held
and nobody else running the call never returns (`none`). -/
def spin_lock (s : State) : Option State :=
  if s.boot_lock then none
  else some (emit Effect.spin_lock { s with boot_lock := true })

/-- Modelled from the spec: `spin_unlock` is kernel code outside the sources
at hand; the `release()` of the lock. -/
def spin_unlock (s : State) : State :=
  emit Effect.spin_unlock { s with boot_lock := false }

/-- Modelled from the spec: `iowrite32` is kernel code outside the sources at
hand; a write to a 32-bit register, which stores the low 32 bits of `val` at
`addr`. -/
def iowrite32 (val addr : Nat) (s : State) : State :=
  emit (Effect.iowrite32 (val % WORD) addr)
    { s with mmio := fun a => if a = addr then val % WORD else s.mmio a }

/-! ## The functions of `platsmp.c` -/

/-- The function `npcm7xx_write_pen_release(val)`. -/
def npcm7xx_write_pen_release (val : Int) (s : State) : State :=
  let s := emit (Effect.store_pen val) { s with pen_release := val }
  let s := emit Effect.smp_wmb s
  let s := emit Effect.flush_dcache_pen s
  emit Effect.outer_clean_pen s

/-- The function `npcm7xx_smp_secondary_init(cpu)`; `cpu` is not used by the
body. -/
def npcm7xx_smp_secondary_init (_cpu : Nat) (s : State) : Option State :=
  let s := npcm7xx_write_pen_release (-1) s
  match spin_lock s with
  | none => none
  | some s => some (spin_unlock s)

/-- The `while (time_before(jiffies, timeout))` loop of
`npcm7xx_smp_boot_secondary`; `fuel` bounds the number of loop tests, and
`none` means the bound was reached with the loop still running. -/
def poll (env : Env) (timeout : Nat) : Nat → State → Option State
  | 0, _ => none
  | fuel + 1, s =>
    let (j, s) := read_jiffies env s
    if time_before j timeout then
      let s := emit Effect.smp_rmb s
      let (p, s) := read_pen_release env s
      if p = -1 then some s
      else poll env timeout fuel (emit (Effect.udelay 10) s)
    else some s

/-- The function `npcm7xx_smp_boot_secondary(cpu, idle)`; `idle` is not used
by the body and is left out.  The result is the returned `int` and the final
state, or `none` when the call does not return (lock never obtained, or
`fuel` loop tests were not enough). -/
def npcm7xx_smp_boot_secondary (k : Kernel) (env : Env) (fuel : Nat) (cpu : Nat)
    (s : State) : Option (Int × State) :=
  if s.gcr_base = 0 then some (-(k.eio : Int), s)
  else
    match spin_lock s with
    | none => none
    | some s =>
      let s := npcm7xx_write_pen_release (toInt32 (k.cpu_logical_map cpu)) s
      let s := iowrite32 k.startup_phys (s.gcr_base + NPCM7XX_SCRPAD_REG) s
      let s := emit Effect.smp_rmb s
      let s := emit (Effect.wakeup_ipi cpu) s
      let (j, s) := read_jiffies env s
      let timeout := (j + k.HZ * 1) % WORD
      match poll env timeout fuel s with
      | none => none
      | some s =>
        let s := spin_unlock s
        let (p, s) := read_pen_release env s
        some (if p ≠ -1 then -(k.eio : Int) else 0, s)

/-- The function `npcm7xx_wakeup_secondary()`. -/
def npcm7xx_wakeup_secondary (k : Kernel) (s : State) : State :=
  let s := iowrite32 k.startup_phys (s.gcr_base + NPCM7XX_SCRPAD_REG) s
  let s := emit Effect.smp_wmb s
  let s := emit Effect.dsb_sev s
  emit Effect.mb s

/-- The function `npcm7xx_smp_prepare_cpus(max_cpus)`; `max_cpus` is not used
by the body. -/
def npcm7xx_smp_prepare_cpus (k : Kernel) (dt : DeviceTree) (_max_cpus : Nat)
    (s : State) : State :=
  match dt.of_find_compatible_node "nuvoton,npcm750-gcr" with
  | none => emit (Effect.pr_err "no gcr device node\n") s
  | some gcr_np =>
    let s := { s with gcr_base := dt.of_iomap gcr_np 0 }
    if s.gcr_base = 0 then emit (Effect.pr_err "could not iomap gcr at: 0x%llx\n") s
    else
      match dt.of_find_compatible_node "arm,cortex-a9-scu" with
      | none => emit (Effect.pr_err "no scu device node\n") s
      | some scu_np =>
        let s := { s with scu_base := dt.of_iomap scu_np 0 }
        if s.scu_base = 0 then emit (Effect.pr_err "could not iomap gcr at: 0x%llx\n") s
        else
          let s := emit (Effect.scu_enable s.scu_base) s
          npcm7xx_wakeup_secondary k s

/-! ## Concrete inputs used in examples -/

/-- The state before platform initialisation: nothing mapped, `pen_release`
at its initial `-1`, lock free, registers zero. -/
def boot_state : State :=
  { gcr_base := 0, scu_base := 0, pen_release := -1, boot_lock := false,
    mmio := fun _ => 0, jreads := 0, preads := 0, trace := [] }

/-- A kernel configuration: `EIO = 5`, `HZ = 100`, an identity logical map and
the startup routine at physical address `0x8000_1000`. -/
def kernel0 : Kernel :=
  { eio := 5, HZ := 100, cpu_logical_map := fun c => c, startup_phys := 0x80001000 }

/-- A state with the GCR block mapped at `0xF0800000`. -/
def mapped_state : State := { boot_state with gcr_base := 0xF0800000 }

/-- An environment in which 50 ticks pass between reads of `jiffies` and no
other core ever stores to `pen_release`. -/
def env_silent : Env := { clock := fun n => 50 * n, pen := fun _ => none }

/-- An environment in which 50 ticks pass between reads of `jiffies` and the
secondary core stores `-1` only after the loop's single read of `pen_release`
(read number `0`), before the read made by the `return` statement (read
number `1`). -/
def env_late : Env :=
  { clock := fun n => 50 * n, pen := fun n => if n = 1 then some (-1) else none }

/-- An environment in which the secondary core has stored `-1` by the time of
the first read of `pen_release`. -/
def env_confirm : Env :=
  { clock := fun n => 50 * n, pen := fun n => if n = 0 then some (-1) else none }

/-- A device tree with a GCR node (node `1`, mapped at `0xF0800000`) and no
SCU node. -/
def dt_no_scu : DeviceTree :=
  { of_find_compatible_node := fun c => if c = "nuvoton,npcm750-gcr" then some 1 else none,
    of_iomap := fun np _ => if np = 1 then 0xF0800000 else 0 }

/-- A kernel configuration as `kernel0`, booted on the core with hardware id
`1`: logical core `0` has hardware id `1` and logical core `1` has hardware
id `0`. -/
def kernel_swapped : Kernel :=
  { eio := 5, HZ := 100,
    cpu_logical_map := fun c => if c = 0 then 1 else if c = 1 then 0 else c,
    startup_phys := 0x80001000 }

/-- A device tree without any node. -/
def dt_empty : DeviceTree :=
  { of_find_compatible_node := fun _ => none, of_iomap := fun _ _ => 0 }

/-- The state in which `npcm7xx_smp_boot_secondary kernel0 env_silent 3 1`
leaves `mapped_state`: the call timed out after two loop tests. -/
def timed_out_state : State :=
  { gcr_base := 0xF0800000, scu_base := 0, pen_release := 1, boot_lock := false,
    mmio := fun a => if a = 0xF0800000 + NPCM7XX_SCRPAD_REG then 0x80001000 else 0,
    jreads := 3, preads := 2,
    trace := [Effect.spin_lock, Effect.store_pen 1, Effect.smp_wmb, Effect.flush_dcache_pen,
      Effect.outer_clean_pen, Effect.iowrite32 0x80001000 0xF080013c, Effect.smp_rmb,
      Effect.wakeup_ipi 1, Effect.smp_rmb, Effect.read_pen 1, Effect.udelay 10,
      Effect.spin_unlock, Effect.read_pen 1] }

/-- Wake signals among the actions. -/
def is_wake : Effect → Bool
  | Effect.wakeup_ipi _ => true
  | _ => false

/-- The reads of `pen_release` recorded in a trace before the first
`spin_unlock`: for one call of `npcm7xx_smp_boot_secondary` these are the
reads made inside the poll loop. -/
def observed_in_loop (t : List Effect) : List Int :=
  (t.takeWhile (fun e => e != Effect.spin_unlock)).filterMap
    (fun e => match e with
      | Effect.read_pen v => some v
      | _ => none)

/-- The actions the poll loop may perform. -/
def is_poll_effect : Effect → Bool
  | Effect.smp_rmb => true
  | Effect.read_pen _ => true
  | Effect.udelay us => decide (us = 10)
  | _ => false

/-- The deadline computed by `timeout = jiffies + (HZ * 1)` in a call started
in state `s`. -/
def timeout_of (k : Kernel) (env : Env) (s : State) : Nat :=
  (env.clock s.jreads % WORD + k.HZ * 1) % WORD

/-- The state in which a call started in `s` (block mapped, lock free) enters
its poll loop: everything up to and including `timeout = jiffies + (HZ * 1)`
has been executed. -/
def loop_entry (k : Kernel) (env : Env) (cpu : Nat) (s : State) : State :=
  let s := emit Effect.spin_lock { s with boot_lock := true }
  let s := npcm7xx_write_pen_release (toInt32 (k.cpu_logical_map cpu)) s
  let s := iowrite32 k.startup_phys (s.gcr_base + NPCM7XX_SCRPAD_REG) s
  let s := emit Effect.smp_rmb s
  let s := emit (Effect.wakeup_ipi cpu) s
  (read_jiffies env s).2

/-- What a call does after its poll loop has ended in state `s`:
`spin_unlock`, then `return pen_release != -1 ? -EIO : 0`. -/
def loop_exit (k : Kernel) (env : Env) (s : State) : Int × State :=
  let s := spin_unlock s
  let (p, s) := read_pen_release env s
  (if p ≠ -1 then -(k.eio : Int) else 0, s)

/-- Seen from a call of `npcm7xx_smp_boot_secondary` started in state `s`: the
loop test number `n` (counting from `0`) finds `time_before(jiffies, timeout)`
false. -/
def deadline_reached (k : Kernel) (env : Env) (s : State) (n : Nat) : Prop :=
  time_before (env.clock (s.jreads + 1 + n) % WORD) (timeout_of k env s) = false

/-- The 8 actions of a call before its poll loop. -/
def prologue (k : Kernel) (cpu : Nat) (s : State) : List Effect :=
  [Effect.spin_lock, Effect.store_pen (toInt32 (k.cpu_logical_map cpu)), Effect.smp_wmb,
   Effect.flush_dcache_pen, Effect.outer_clean_pen,
   Effect.iowrite32 (k.startup_phys % WORD) (s.gcr_base + NPCM7XX_SCRPAD_REG),
   Effect.smp_rmb, Effect.wakeup_ipi cpu]

instance (k : Kernel) (env : Env) (s : State) (n : Nat) :
    Decidable (deadline_reached k env s n) := by
  unfold deadline_reached; infer_instance

/-! ## Two cores running together

For statements about interleavings, the two functions are also given one
statement at a time.  A program point names the statement about to be
executed; `boot_step` and `init_step` execute that one statement on the shared
`State`, with the same primitive actions as above.  A core standing at
`spin_lock` while the lock is held stays where it is.  The secondary core
reaches `npcm7xx_smp_secondary_init` only once the wake signal has been sent.
A schedule is the list of cores in the order in which they take their steps.

Three history flags record what the primary core has done: `wake_sent` (the
wake signal), `loop_ended` (its loop ended, on an observed `-1` or a failed
time test) and `boot_released` (its `spin_unlock`). -/

/-- Program points of `npcm7xx_smp_boot_secondary`. -/
inductive BootPc where
  /-- At `if (!gcr_base) return -EIO;` -/
  | check_gcr
  /-- At `spin_lock(&boot_lock);` -/
  | lock
  /-- At `pen_release = val;` in `npcm7xx_write_pen_release(cpu_logical_map(cpu))` -/
  | pen_store
  /-- At `smp_wmb();` -/
  | pen_wmb
  /-- At `__cpuc_flush_dcache_area(...)` -/
  | pen_flush
  /-- At `outer_clean_range(...)` -/
  | pen_clean
  /-- At `iowrite32(virt_to_phys(npcm7xx_secondary_startup), gcr_base + NPCM7XX_SCRPAD_REG);` -/
  | write_entry
  /-- At `smp_rmb();` -/
  | rmb
  /-- At `arch_send_wakeup_ipi_mask(cpumask_of(cpu));` -/
  | wake
  /-- At `timeout = jiffies + (HZ * 1);` -/
  | set_timeout
  /-- At `while (time_before(jiffies, timeout))` -/
  | loop_test
  /-- At `smp_rmb();` in the loop -/
  | loop_rmb
  /-- At `if (pen_release == -1) break;` -/
  | loop_read
  /-- At `udelay(10);` -/
  | loop_delay
  /-- At `spin_unlock(&boot_lock);` -/
  | unlock
  /-- At `return pen_release != -1 ? -EIO : 0;` -/
  | result
  /-- The function has returned `r`. -/
  | returned (r : Int)
  deriving DecidableEq, Repr

/-- Program points of `npcm7xx_smp_secondary_init`. -/
inductive InitPc where
  /-- The core has not reached the function yet. -/
  | pen
  /-- At `pen_release = val;` in `npcm7xx_write_pen_release(-1)` -/
  | pen_store
  /-- At `smp_wmb();` -/
  | pen_wmb
  /-- At `__cpuc_flush_dcache_area(...)` -/
  | pen_flush
  /-- At `outer_clean_range(...)` -/
  | pen_clean
  /-- At `spin_lock(&boot_lock);` -/
  | lock
  /-- At `spin_unlock(&boot_lock);` -/
  | unlock
  /-- The function has returned. -/
  | returned
  deriving DecidableEq, Repr

/-- The two cores. -/
inductive Core where
  | primary
  | secondary
  deriving DecidableEq, Repr

/-- State of the two cores running together. -/
structure System where
  shared : State
  boot : BootPc
  /-- The local variable `timeout` of `npcm7xx_smp_boot_secondary`. -/
  timeout : Nat
  init : InitPc
  wake_sent : Bool
  loop_ended : Bool
  boot_released : Bool

/-- One statement of `npcm7xx_smp_boot_secondary(cpu, _)` on the primary core. -/
def boot_step (k : Kernel) (env : Env) (cpu : Nat) (σ : System) : System :=
  match σ.boot with
  | BootPc.check_gcr =>
    if σ.shared.gcr_base = 0 then { σ with boot := BootPc.returned (-(k.eio : Int)) }
    else { σ with boot := BootPc.lock }
  | BootPc.lock =>
    match spin_lock σ.shared with
    | none => σ
    | some s => { σ with shared := s, boot := BootPc.pen_store }
  | BootPc.pen_store =>
    { σ with
      shared := emit (Effect.store_pen (toInt32 (k.cpu_logical_map cpu)))
        { σ.shared with pen_release := toInt32 (k.cpu_logical_map cpu) },
      boot := BootPc.pen_wmb }
  | BootPc.pen_wmb => { σ with shared := emit Effect.smp_wmb σ.shared, boot := BootPc.pen_flush }
  | BootPc.pen_flush =>
    { σ with shared := emit Effect.flush_dcache_pen σ.shared, boot := BootPc.pen_clean }
  | BootPc.pen_clean =>
    { σ with shared := emit Effect.outer_clean_pen σ.shared, boot := BootPc.write_entry }
  | BootPc.write_entry =>
    { σ with
      shared := iowrite32 k.startup_phys (σ.shared.gcr_base + NPCM7XX_SCRPAD_REG) σ.shared,
      boot := BootPc.rmb }
  | BootPc.rmb => { σ with shared := emit Effect.smp_rmb σ.shared, boot := BootPc.wake }
  | BootPc.wake =>
    { σ with shared := emit (Effect.wakeup_ipi cpu) σ.shared, boot := BootPc.set_timeout,
             wake_sent := true }
  | BootPc.set_timeout =>
    { σ with shared := (read_jiffies env σ.shared).2,
             timeout := ((read_jiffies env σ.shared).1 + k.HZ * 1) % WORD,
             boot := BootPc.loop_test }
  | BootPc.loop_test =>
    if time_before (read_jiffies env σ.shared).1 σ.timeout then
      { σ with shared := (read_jiffies env σ.shared).2, boot := BootPc.loop_rmb }
    else
      { σ with shared := (read_jiffies env σ.shared).2, boot := BootPc.unlock,
               loop_ended := true }
  | BootPc.loop_rmb => { σ with shared := emit Effect.smp_rmb σ.shared, boot := BootPc.loop_read }
  | BootPc.loop_read =>
    if (read_pen_release env σ.shared).1 = -1 then
      { σ with shared := (read_pen_release env σ.shared).2, boot := BootPc.unlock,
               loop_ended := true }
    else
      { σ with shared := (read_pen_release env σ.shared).2, boot := BootPc.loop_delay }
  | BootPc.loop_delay =>
    { σ with shared := emit (Effect.udelay 10) σ.shared, boot := BootPc.loop_test }
  | BootPc.unlock =>
    { σ with shared := spin_unlock σ.shared, boot := BootPc.result, boot_released := true }
  | BootPc.result =>
    { σ with
      shared := (read_pen_release env σ.shared).2,
      boot := BootPc.returned
        (if (read_pen_release env σ.shared).1 ≠ -1 then -(k.eio : Int) else 0) }
  | BootPc.returned _ => σ

/-- One statement of `npcm7xx_smp_secondary_init(cpu)` on the secondary core;
`cpu` is not used. -/
def init_step (_cpu : Nat) (σ : System) : System :=
  match σ.init with
  | InitPc.pen => if σ.wake_sent then { σ with init := InitPc.pen_store } else σ
  | InitPc.pen_store =>
    { σ with shared := emit (Effect.store_pen (-1)) { σ.shared with pen_release := -1 },
             init := InitPc.pen_wmb }
  | InitPc.pen_wmb => { σ with shared := emit Effect.smp_wmb σ.shared, init := InitPc.pen_flush }
  | InitPc.pen_flush =>
    { σ with shared := emit Effect.flush_dcache_pen σ.shared, init := InitPc.pen_clean }
  | InitPc.pen_clean =>
    { σ with shared := emit Effect.outer_clean_pen σ.shared, init := InitPc.lock }
  | InitPc.lock =>
    match spin_lock σ.shared with
    | none => σ
    | some s => { σ with shared := s, init := InitPc.unlock }
  | InitPc.unlock => { σ with shared := spin_unlock σ.shared, init := InitPc.returned }
  | InitPc.returned => σ

/-- One step of the core `c`: the primary core runs
`npcm7xx_smp_boot_secondary(cpu, _)`, the secondary core
`npcm7xx_smp_secondary_init(cpu2)`. -/
def step (k : Kernel) (env : Env) (cpu cpu2 : Nat) (c : Core) (σ : System) : System :=
  match c with
  | Core.primary => boot_step k env cpu σ
  | Core.secondary => init_step cpu2 σ

/-- The state after the cores have taken their steps in the order `sched`. -/
def run (k : Kernel) (env : Env) (cpu cpu2 : Nat) (sched : List Core) (σ : System) : System :=
  sched.foldl (fun τ c => step k env cpu cpu2 c τ) σ

/-- Both cores at the start: the primary core about to call
`npcm7xx_smp_boot_secondary`, the secondary core in the holding pen. -/
def start (s : State) : System :=
  { shared := s, boot := BootPc.check_gcr, timeout := 0, init := InitPc.pen,
    wake_sent := false, loop_ended := false, boot_released := false }

/-- The primary core is between its `spin_lock` and its `spin_unlock`. -/
def boot_holds : BootPc → Bool
  | BootPc.check_gcr => false
  | BootPc.lock => false
  | BootPc.result => false
  | BootPc.returned _ => false
  | _ => true

/-- The secondary core is between its `spin_lock` and its `spin_unlock`. -/
def init_holds : InitPc → Bool
  | InitPc.unlock => true
  | _ => false

/-- The secondary core has got past its `spin_lock`. -/
def init_passed_lock : InitPc → Bool
  | InitPc.unlock => true
  | InitPc.returned => true
  | _ => false

/-- The primary core is past its `spin_unlock`, or has returned. -/
def boot_past_unlock : BootPc → Bool
  | BootPc.result => true
  | BootPc.returned _ => true
  | _ => false

/-- What holds of every state reachable from `start s` with the lock free. -/
structure Inv (σ : System) : Prop where
  lock_iff : σ.shared.boot_lock = (boot_holds σ.boot || init_holds σ.init)
  exclusive : (boot_holds σ.boot && init_holds σ.init) = false
  started : σ.init ≠ InitPc.pen → σ.wake_sent = true
  woken : σ.wake_sent = true → boot_holds σ.boot = true ∨ σ.boot_released = true
  released : σ.boot_released = true → boot_past_unlock σ.boot = true ∧ σ.loop_ended = true
  passed : init_passed_lock σ.init = true → σ.boot_released = true
  ended : σ.boot = BootPc.unlock → σ.loop_ended = true

/-- The primary core taking `n` steps in a row. -/
def boot_steps (k : Kernel) (env : Env) (cpu : Nat) : Nat → System → System
  | 0, σ => σ
  | n + 1, σ => boot_steps k env cpu n (boot_step k env cpu σ)

/-- The secondary core taking `n` steps in a row. -/
def init_steps (cpu : Nat) : Nat → System → System
  | 0, σ => σ
  | n + 1, σ => init_steps cpu n (init_step cpu σ)

/-- A schedule in which the secondary core answers during the first poll: the
primary core runs up to its first read of `pen_release`, the secondary core
stores `-1` and waits at the lock, the primary core sees `-1`, unlocks and
returns, the secondary core takes the lock, releases it and returns. -/
def sched_confirm : List Core :=
  List.replicate 12 Core.primary ++ List.replicate 6 Core.secondary ++
  List.replicate 3 Core.primary ++ List.replicate 2 Core.secondary

/-! ## Lemmas on the poll loop -/

/-- What the loop leaves alone, and what it may add to the trace. -/
theorem poll_frame (env : Env) (timeout : Nat) :
    ∀ (fuel : Nat) (s s' : State), poll env timeout fuel s = some s' →
      s'.gcr_base = s.gcr_base ∧ s'.scu_base = s.scu_base ∧
      s'.boot_lock = s.boot_lock ∧ s'.mmio = s.mmio ∧ s.jreads < s'.jreads ∧
      ∃ l, s'.trace = s.trace ++ l ∧ ∀ e ∈ l, is_poll_effect e = true := by
  intro fuel
  induction fuel with
  | zero => intro s s' h; simp [poll] at h
  | succ n ih =>
    intro s s' h
    simp only [poll, read_jiffies, read_pen_release, emit] at h
    split at h
    · split at h
      · cases h
        refine ⟨rfl, rfl, rfl, rfl, by simp, [Effect.smp_rmb, Effect.read_pen ((env.pen s.preads).getD s.pen_release)], by simp, ?_⟩
        intro e he
        simp at he
        rcases he with rfl | rfl <;> rfl
      · obtain ⟨h1, h2, h3, h4, h5, l, h6, h7⟩ := ih _ _ h
        simp only at h1 h2 h3 h4 h5 h6
        refine ⟨h1, h2, h3, h4, by omega,
          [Effect.smp_rmb, Effect.read_pen ((env.pen s.preads).getD s.pen_release),
            Effect.udelay 10] ++ l, by simp [h6], ?_⟩
        intro e he
        simp at he
        rcases he with rfl | rfl | rfl | he
        · rfl
        · rfl
        · rfl
        · exact h7 e he
    · cases h
      exact ⟨rfl, rfl, rfl, rfl, by simp, [], by simp, by simp⟩

/-- The loop ends only on an observed `-1` or on a failed time test. -/
theorem poll_exit (env : Env) (timeout : Nat) :
    ∀ (fuel : Nat) (s s' : State), poll env timeout fuel s = some s' →
      (s'.pen_release = -1 ∧ s'.trace.getLast? = some (Effect.read_pen (-1))) ∨
      time_before (env.clock (s'.jreads - 1) % WORD) timeout = false := by
  intro fuel
  induction fuel with
  | zero => intro s s' h; simp [poll] at h
  | succ n ih =>
    intro s s' h
    simp only [poll, read_jiffies, read_pen_release, emit] at h
    split at h
    · split at h
      · rename_i hp
        cases h
        left
        simp [hp]
      · exact ih _ _ h
    · rename_i ht
      cases h
      right
      simpa using ht

/-- Enough loop tests: when test number `n` from the current one finds the
deadline reached, `n + 1` tests suffice for the loop to end. -/
theorem poll_terminates (env : Env) (timeout : Nat) :
    ∀ (n : Nat) (s : State),
      time_before (env.clock (s.jreads + n) % WORD) timeout = false →
      ∃ s', poll env timeout (n + 1) s = some s' := by
  intro n
  induction n with
  | zero =>
    intro s h
    simp only [Nat.add_zero] at h
    simp [poll, read_jiffies, h]
  | succ n ih =>
    intro s h
    rw [poll]
    simp only [read_jiffies, read_pen_release, emit]
    split
    · split
      · exact ⟨_, rfl⟩
      · apply ih
        simpa [Nat.add_assoc, Nat.add_comm 1 n] using h
    · exact ⟨_, rfl⟩

/-- More fuel does not change a result already obtained. -/
theorem poll_fuel_mono (env : Env) (timeout : Nat) :
    ∀ (fuel : Nat) (s s' : State), poll env timeout fuel s = some s' →
      ∀ extra, poll env timeout (fuel + extra) s = some s' := by
  intro fuel
  induction fuel with
  | zero => intro s s' h; simp [poll] at h
  | succ n ih =>
    intro s s' h extra
    rw [Nat.add_right_comm, poll]
    rw [poll] at h
    simp only [read_jiffies, read_pen_release, emit] at h ⊢
    split
    · rename_i ht
      rw [if_pos ht] at h
      split
      · rename_i hp
        rw [if_pos hp] at h
        exact h
      · rename_i hp
        rw [if_neg hp] at h
        exact ih _ _ h extra
    · rename_i ht
      rw [if_neg ht] at h
      exact h

/-- With nobody else storing to `pen_release` and a value other than `-1` in
it, the loop leaves the cell alone and ends only on a failed time test. -/
theorem poll_silent (env : Env) (timeout : Nat) (hq : ∀ n, env.pen n = none) :
    ∀ (fuel : Nat) (s s' : State), s.pen_release ≠ -1 →
      poll env timeout fuel s = some s' →
      s'.pen_release = s.pen_release ∧
      time_before (env.clock (s'.jreads - 1) % WORD) timeout = false := by
  intro fuel
  induction fuel with
  | zero => intro s s' _ h; simp [poll] at h
  | succ n ih =>
    intro s s' hne h
    simp only [poll, read_jiffies, read_pen_release, emit, hq, Option.getD_none] at h
    by_cases ht : time_before (env.clock s.jreads % WORD) timeout = true
    · rw [if_pos ht, if_neg hne] at h
      have hrec := ih _ s' (by simpa using hne) h
      simpa using hrec
    · rw [if_neg ht] at h
      cases h
      exact ⟨rfl, by simpa using ht⟩

/-! ## Lemmas on `npcm7xx_smp_boot_secondary` -/

/-- With the block mapped and the lock free, a call is its prologue, the poll
loop and its epilogue. -/
theorem boot_secondary_eq (k : Kernel) (env : Env) (fuel cpu : Nat) (s : State)
    (hmap : s.gcr_base ≠ 0) (hlock : s.boot_lock = false) :
    npcm7xx_smp_boot_secondary k env fuel cpu s =
      (poll env (timeout_of k env s) fuel (loop_entry k env cpu s)).map (loop_exit k env) := by
  simp only [npcm7xx_smp_boot_secondary, if_neg hmap, spin_lock, hlock, Bool.false_eq_true,
    if_false]
  simp only [loop_entry, timeout_of, loop_exit, read_jiffies, emit, npcm7xx_write_pen_release,
    iowrite32]
  cases poll env _ fuel _ <;> rfl

/-- A call that returns with the block mapped found the lock free. -/
theorem boot_secondary_lock_free (k : Kernel) (env : Env) (fuel cpu : Nat) (s : State)
    (r : Int) (s' : State) (hmap : s.gcr_base ≠ 0)
    (hret : npcm7xx_smp_boot_secondary k env fuel cpu s = some (r, s')) :
    s.boot_lock = false := by
  cases hl : s.boot_lock with
  | false => rfl
  | true => simp [npcm7xx_smp_boot_secondary, hmap, spin_lock, hl] at hret

/-- Shape of a returning call with the block mapped: the prologue, the loop's
actions, the unlock and the final read that decides the result. -/
theorem boot_secondary_shape (k : Kernel) (env : Env) (fuel cpu : Nat) (s : State)
    (r : Int) (s' : State) (hmap : s.gcr_base ≠ 0)
    (hret : npcm7xx_smp_boot_secondary k env fuel cpu s = some (r, s')) :
    ∃ (l : List Effect) (p : Int),
      s'.trace = s.trace ++ prologue k cpu s ++ l ++ [Effect.spin_unlock, Effect.read_pen p] ∧
      (∀ e ∈ l, is_poll_effect e = true) ∧
      (r = if p ≠ -1 then -(k.eio : Int) else 0) ∧
      s'.pen_release = p ∧ s'.boot_lock = false ∧ s'.gcr_base = s.gcr_base ∧
      s'.scu_base = s.scu_base ∧
      s'.mmio = (fun a => if a = s.gcr_base + NPCM7XX_SCRPAD_REG then k.startup_phys % WORD
        else s.mmio a) ∧
      s.jreads + 1 < s'.jreads := by
  have hlock := boot_secondary_lock_free k env fuel cpu s r s' hmap hret
  rw [boot_secondary_eq k env fuel cpu s hmap hlock] at hret
  cases hp : poll env (timeout_of k env s) fuel (loop_entry k env cpu s) with
  | none => simp [hp] at hret
  | some sp =>
    rw [hp] at hret
    simp only [Option.map_some', Option.some.injEq] at hret
    obtain ⟨h1, h2, h3, h4, h5, l, h6, h7⟩ := poll_frame env _ fuel _ sp hp
    refine ⟨l, (env.pen sp.preads).getD sp.pen_release, ?_, h7, ?_, ?_, ?_, ?_, ?_, ?_, ?_⟩
    all_goals
      simp only [loop_exit, spin_unlock, read_pen_release, emit, Prod.mk.injEq] at hret
      obtain ⟨hr, hs⟩ := hret
      subst hs
    · simp [h6, loop_entry, prologue, emit, npcm7xx_write_pen_release, iowrite32, read_jiffies]
    · exact hr.symm
    · rfl
    · rfl
    · simpa [loop_entry, emit, npcm7xx_write_pen_release, iowrite32, read_jiffies] using h1
    · simpa [loop_entry, emit, npcm7xx_write_pen_release, iowrite32, read_jiffies] using h2
    · simpa [loop_entry, emit, npcm7xx_write_pen_release, iowrite32, read_jiffies] using h4
    · simp only [loop_entry, emit, npcm7xx_write_pen_release, iowrite32, read_jiffies] at h5
      simpa using h5

/-- A call with the block mapped and the lock free returns as soon as one loop
test finds the deadline reached. -/
theorem boot_secondary_returns (k : Kernel) (env : Env) (cpu : Nat) (s : State) (n : Nat)
    (hmap : s.gcr_base ≠ 0) (hlock : s.boot_lock = false)
    (hreach : deadline_reached k env s n) :
    ∃ r s', npcm7xx_smp_boot_secondary k env (n + 1) cpu s = some (r, s') := by
  rw [boot_secondary_eq k env (n + 1) cpu s hmap hlock]
  have hj : (loop_entry k env cpu s).jreads = s.jreads + 1 := by
    simp [loop_entry, emit, npcm7xx_write_pen_release, iowrite32, read_jiffies]
  obtain ⟨sp, hsp⟩ := poll_terminates env (timeout_of k env s) n (loop_entry k env cpu s)
    (by rw [hj]; exact hreach)
  exact ⟨(loop_exit k env sp).1, (loop_exit k env sp).2, by simp [hsp]⟩

/-- With `gcr_base` null the call returns `-EIO` and changes nothing. -/
theorem boot_secondary_unmapped (k : Kernel) (env : Env) (fuel cpu : Nat) (s : State)
    (hnull : s.gcr_base = 0) :
    npcm7xx_smp_boot_secondary k env fuel cpu s = some (-(k.eio : Int), s) := by
  simp [npcm7xx_smp_boot_secondary, hnull]

/-- A call started with the lock free returns as soon as one loop test finds
the deadline reached, mapped block or not. -/
theorem boot_secondary_returns_any (k : Kernel) (env : Env) (cpu : Nat) (s : State) (n : Nat)
    (hlock : s.boot_lock = false) (hreach : deadline_reached k env s n) :
    ∃ r s', npcm7xx_smp_boot_secondary k env (n + 1) cpu s = some (r, s') := by
  by_cases hmap : s.gcr_base = 0
  · exact ⟨_, _, boot_secondary_unmapped k env (n + 1) cpu s hmap⟩
  · exact boot_secondary_returns k env cpu s n hmap hlock hreach

/-- A call started with the lock free leaves it free when it returns. -/
theorem boot_secondary_unlocks (k : Kernel) (env : Env) (fuel cpu : Nat) (s : State)
    (r : Int) (s' : State) (hlock : s.boot_lock = false)
    (hret : npcm7xx_smp_boot_secondary k env fuel cpu s = some (r, s')) :
    s'.boot_lock = false := by
  by_cases hmap : s.gcr_base = 0
  · rw [boot_secondary_unmapped k env fuel cpu s hmap] at hret
    cases hret
    exact hlock
  · obtain ⟨l, p, _, _, _, _, h, _⟩ := boot_secondary_shape k env fuel cpu s r s' hmap hret
    exact h

/-- A result obtained within `fuel` loop tests is the result for every larger
bound. -/
theorem boot_secondary_fuel_mono (k : Kernel) (env : Env) (fuel cpu : Nat) (s : State)
    (r : Int) (s' : State)
    (hret : npcm7xx_smp_boot_secondary k env fuel cpu s = some (r, s')) (extra : Nat) :
    npcm7xx_smp_boot_secondary k env (fuel + extra) cpu s = some (r, s') := by
  by_cases hmap : s.gcr_base = 0
  · rw [boot_secondary_unmapped k env fuel cpu s hmap] at hret
    rw [boot_secondary_unmapped k env (fuel + extra) cpu s hmap]
    exact hret
  · have hlock := boot_secondary_lock_free k env fuel cpu s r s' hmap hret
    rw [boot_secondary_eq k env fuel cpu s hmap hlock] at hret
    rw [boot_secondary_eq k env (fuel + extra) cpu s hmap hlock]
    cases hp : poll env (timeout_of k env s) fuel (loop_entry k env cpu s) with
    | none => simp [hp] at hret
    | some sp =>
      rw [poll_fuel_mono env _ fuel _ sp hp extra]
      rw [hp] at hret
      exact hret

/-! ## The step-by-step form agrees with the functions -/

/-- Steps of the primary core taken in two batches. -/
theorem boot_steps_add (k : Kernel) (env : Env) (cpu : Nat) (m n : Nat) :
    ∀ σ : System, boot_steps k env cpu (m + n) σ =
      boot_steps k env cpu n (boot_steps k env cpu m σ) := by
  induction m with
  | zero => intro σ; simp [boot_steps]
  | succ m ih =>
    intro σ
    rw [Nat.add_right_comm]
    simp only [boot_steps]
    exact ih _

/-- A schedule of the primary core alone. -/
theorem run_primary (k : Kernel) (env : Env) (cpu cpu2 : Nat) (n : Nat) :
    ∀ σ : System, run k env cpu cpu2 (List.replicate n Core.primary) σ =
      boot_steps k env cpu n σ := by
  induction n with
  | zero => intro σ; rfl
  | succ n ih =>
    intro σ
    simp only [List.replicate_succ, run, List.foldl_cons, boot_steps, step]
    exact ih _

/-- A schedule of the secondary core alone. -/
theorem run_secondary (k : Kernel) (env : Env) (cpu cpu2 : Nat) (n : Nat) :
    ∀ σ : System, run k env cpu cpu2 (List.replicate n Core.secondary) σ =
      init_steps cpu2 n σ := by
  induction n with
  | zero => intro σ; rfl
  | succ n ih =>
    intro σ
    simp only [List.replicate_succ, run, List.foldl_cons, init_steps, step]
    exact ih _

/-- The loop, statement by statement, ends where `poll` ends. -/
theorem boot_steps_poll (k : Kernel) (env : Env) (cpu : Nat) :
    ∀ (fuel : Nat) (σ : System) (sp : State), σ.boot = BootPc.loop_test →
      poll env σ.timeout fuel σ.shared = some sp →
      ∃ n, (boot_steps k env cpu n σ).boot = BootPc.unlock ∧
        (boot_steps k env cpu n σ).shared = sp := by
  intro fuel
  induction fuel with
  | zero => intro σ sp _ h; simp [poll] at h
  | succ f ih =>
    intro σ sp hb h
    rw [poll] at h
    by_cases ht : time_before (read_jiffies env σ.shared).1 σ.timeout = true
    · simp only [ht, if_true] at h
      by_cases hp : (read_pen_release env (emit Effect.smp_rmb (read_jiffies env σ.shared).2)).1 = -1
      · simp only [hp, if_true, Option.some.injEq] at h
        refine ⟨3, ?_, ?_⟩
        · simp [boot_steps, boot_step, hb, ht, hp]
        · simp [boot_steps, boot_step, hb, ht, hp, h]
      · simp only [hp, if_false] at h
        obtain ⟨n, hn1, hn2⟩ := ih (boot_steps k env cpu 4 σ) sp
          (by simp [boot_steps, boot_step, hb, ht, hp])
          (by simpa [boot_steps, boot_step, hb, ht, hp] using h)
        exact ⟨4 + n, by rw [boot_steps_add]; exact hn1, by rw [boot_steps_add]; exact hn2⟩
    · simp only [ht, Bool.false_eq_true, if_false, Option.some.injEq] at h
      refine ⟨1, ?_, ?_⟩
      · simp [boot_steps, boot_step, hb, ht]
      · simp [boot_steps, boot_step, hb, ht, h]


/-- The two statements after the loop, one by one, do what `loop_exit` does. -/
theorem boot_steps_exit (k : Kernel) (env : Env) (cpu : Nat) (σ : System)
    (hb : σ.boot = BootPc.unlock) :
    (boot_steps k env cpu 2 σ).boot = BootPc.returned (loop_exit k env σ.shared).1 ∧
      (boot_steps k env cpu 2 σ).shared = (loop_exit k env σ.shared).2 := by
  constructor <;> simp [boot_steps, boot_step, hb, loop_exit]

/-- The ten statements before the loop, one by one, lead to `loop_entry`. -/
theorem boot_steps_entry (k : Kernel) (env : Env) (cpu : Nat) (s : State)
    (hmap : s.gcr_base ≠ 0) (hlock : s.boot_lock = false) :
    (boot_steps k env cpu 10 (start s)).boot = BootPc.loop_test ∧
    (boot_steps k env cpu 10 (start s)).shared = loop_entry k env cpu s ∧
    (boot_steps k env cpu 10 (start s)).timeout = timeout_of k env s := by
  refine ⟨?_, ?_, ?_⟩
  · simp [boot_steps, boot_step, start, hmap, spin_lock, hlock]
  · simp [boot_steps, boot_step, start, hmap, spin_lock, hlock, loop_entry,
      npcm7xx_write_pen_release, emit, iowrite32, read_jiffies]
  · simp [boot_steps, boot_step, start, hmap, spin_lock, hlock, timeout_of,
      emit, iowrite32, read_jiffies]

/-- Run alone from `start s`, statement by statement, the primary core returns
what `npcm7xx_smp_boot_secondary` returns and leaves the state it leaves. -/
theorem boot_steps_refine (k : Kernel) (env : Env) (fuel cpu : Nat) (s : State)
    (r : Int) (s' : State)
    (hret : npcm7xx_smp_boot_secondary k env fuel cpu s = some (r, s')) :
    ∃ n, (boot_steps k env cpu n (start s)).boot = BootPc.returned r ∧
      (boot_steps k env cpu n (start s)).shared = s' := by
  by_cases hmap : s.gcr_base = 0
  · rw [boot_secondary_unmapped k env fuel cpu s hmap] at hret
    simp only [Option.some.injEq, Prod.mk.injEq] at hret
    obtain ⟨hr, hs⟩ := hret
    subst hs
    refine ⟨1, ?_, ?_⟩
    · simp [boot_steps, boot_step, start, hmap, hr]
    · simp [boot_steps, boot_step, start, hmap]
  · have hlock := boot_secondary_lock_free k env fuel cpu s r s' hmap hret
    rw [boot_secondary_eq k env fuel cpu s hmap hlock] at hret
    cases hp : poll env (timeout_of k env s) fuel (loop_entry k env cpu s) with
    | none => simp [hp] at hret
    | some sp =>
      rw [hp] at hret
      simp only [Option.map_some', Option.some.injEq] at hret
      obtain ⟨h10b, h10s, h10t⟩ := boot_steps_entry k env cpu s hmap hlock
      obtain ⟨n, hn1, hn2⟩ := boot_steps_poll k env cpu fuel (boot_steps k env cpu 10 (start s))
        sp h10b (by rw [h10t, h10s]; exact hp)
      obtain ⟨he1, he2⟩ := boot_steps_exit k env cpu _ hn1
      rw [hn2, hret] at he1 he2
      exact ⟨10 + n + 2, by rw [boot_steps_add, boot_steps_add]; exact he1,
        by rw [boot_steps_add, boot_steps_add]; exact he2⟩

/-- Run alone once the wake signal has been sent, statement by statement, the
secondary core leaves the state `npcm7xx_smp_secondary_init` leaves. -/
theorem init_steps_refine (cpu : Nat) (σ : System) (s' : State)
    (hpen : σ.init = InitPc.pen) (hwake : σ.wake_sent = true)
    (hret : npcm7xx_smp_secondary_init cpu σ.shared = some s') :
    (init_steps cpu 7 σ).init = InitPc.returned ∧ (init_steps cpu 7 σ).shared = s' := by
  have hlock : σ.shared.boot_lock = false := by
    cases hl : σ.shared.boot_lock with
    | false => rfl
    | true =>
      simp [npcm7xx_smp_secondary_init, npcm7xx_write_pen_release, spin_lock, emit, hl] at hret
  simp only [npcm7xx_smp_secondary_init, npcm7xx_write_pen_release, spin_lock, spin_unlock,
    emit, hlock, Bool.false_eq_true, if_false, Option.some.injEq] at hret
  constructor
  · simp [init_steps, init_step, hpen, hwake, spin_lock, emit, hlock]
  · simp [init_steps, init_step, hpen, hwake, spin_lock, spin_unlock, emit, hlock, ← hret]

/-! ## C1: the unmapped block -/

/-- C1: whatever the core id and the prior state, when `gcr_base` is null
`npcm7xx_smp_boot_secondary` returns `-EIO` at once and the state it leaves
is the state it found: lock, `pen_release`, registers, read counters and
trace (no lock operation, store, register write, wake signal, read of
`pen_release` or delay) are all unchanged.  No loop test is needed
(`fuel` may be `0`). -/
theorem C1_unmapped_returns_at_once (k : Kernel) (env : Env) (fuel cpu : Nat) (s : State)
    (hnull : s.gcr_base = 0) :
    npcm7xx_smp_boot_secondary k env fuel cpu s = some (-(k.eio : Int), s) :=
  boot_secondary_unmapped k env fuel cpu s hnull

/-- C1 at a concrete input: core `1`, nothing mapped, no loop test allowed. -/
theorem C1_unmapped_returns_at_once_witness :
    npcm7xx_smp_boot_secondary kernel0 env_silent 0 1 boot_state =
      some (-(kernel0.eio : Int), boot_state) :=
  C1_unmapped_returns_at_once kernel0 env_silent 0 1 boot_state rfl

/-! ## C2: failures of the register map resolver -/

/-- C2 as stated fails: with the GCR block found and mapped and no SCU node,
`npcm7xx_smp_prepare_cpus` leaves `gcr_base` set, and a later call for core
`1` runs the whole sequence (lock, store, register write, wake signal, poll)
and, the secondary core having answered, returns `0`. -/
theorem C2_counterexample_scu_absent :
    dt_no_scu.of_find_compatible_node "arm,cortex-a9-scu" = none ∧
    (npcm7xx_smp_boot_secondary kernel0 env_confirm 3 1
        (npcm7xx_smp_prepare_cpus kernel0 dt_no_scu 2 boot_state)).map
      (fun x => (x.1, x.2.trace)) =
      some (0, [Effect.pr_err "no scu device node\n", Effect.spin_lock, Effect.store_pen 1,
        Effect.smp_wmb, Effect.flush_dcache_pen, Effect.outer_clean_pen,
        Effect.iowrite32 0x80001000 0xF080013c, Effect.smp_rmb, Effect.wakeup_ipi 1,
        Effect.smp_rmb, Effect.read_pen (-1), Effect.spin_unlock, Effect.read_pen (-1)]) := by
  decide

/-- C2 as amended: when `npcm7xx_smp_prepare_cpus`, run with `gcr_base` still
null as at boot, does not find the GCR node or fails to map it, `gcr_base` is
null afterwards, and every later call of `npcm7xx_smp_boot_secondary` made
while `gcr_base` has that value returns `-EIO` at once, leaving the state as
it found it (no store to `pen_release`, no wake signal, no poll). -/
theorem C2_gcr_failure_disables (k : Kernel) (dt : DeviceTree) (max_cpus : Nat) (s0 : State)
    (hboot : s0.gcr_base = 0)
    (hfail : dt.of_find_compatible_node "nuvoton,npcm750-gcr" = none ∨
      ∃ np, dt.of_find_compatible_node "nuvoton,npcm750-gcr" = some np ∧ dt.of_iomap np 0 = 0) :
    (npcm7xx_smp_prepare_cpus k dt max_cpus s0).gcr_base = 0 ∧
    ∀ (env : Env) (fuel cpu : Nat) (s : State),
      s.gcr_base = (npcm7xx_smp_prepare_cpus k dt max_cpus s0).gcr_base →
      npcm7xx_smp_boot_secondary k env fuel cpu s = some (-(k.eio : Int), s) := by
  have h0 : (npcm7xx_smp_prepare_cpus k dt max_cpus s0).gcr_base = 0 := by
    rcases hfail with hnone | ⟨np, hsome, hio⟩
    · simp [npcm7xx_smp_prepare_cpus, hnone, emit, hboot]
    · simp [npcm7xx_smp_prepare_cpus, hsome, hio, emit]
  refine ⟨h0, fun env fuel cpu s hs => ?_⟩
  exact boot_secondary_unmapped k env fuel cpu s (hs.trans h0)

/-- C2 as amended, at a concrete input: an empty device tree. -/
theorem C2_gcr_failure_disables_witness :
    (npcm7xx_smp_prepare_cpus kernel0 dt_empty 2 boot_state).gcr_base = 0 ∧
    npcm7xx_smp_boot_secondary kernel0 env_confirm 3 1
        (npcm7xx_smp_prepare_cpus kernel0 dt_empty 2 boot_state) =
      some (-(kernel0.eio : Int), npcm7xx_smp_prepare_cpus kernel0 dt_empty 2 boot_state) :=
  ⟨(C2_gcr_failure_disables kernel0 dt_empty 2 boot_state rfl (Or.inl rfl)).1,
   (C2_gcr_failure_disables kernel0 dt_empty 2 boot_state rfl (Or.inl rfl)).2
     env_confirm 3 1 _ rfl⟩

/-! ## C3: what decides the result -/

/-- C3 as stated fails: the single read of `pen_release` made inside the loop
returns `1`, the deadline passes, the secondary core stores `-1` before the
read made by the `return` statement, and the call returns `0` (success). -/
theorem C3_counterexample_late_confirm :
    (npcm7xx_smp_boot_secondary kernel0 env_late 5 1 mapped_state).map
      (fun x => (x.1, observed_in_loop x.2.trace)) = some (0, [1]) := by
  decide

/-- C3 as amended: with the block mapped and the lock free, for whatever the
environment does to `pen_release`, the result of a returning call is decided
by its last action, the read of `pen_release` made by the `return` statement
after the loop has ended and the lock has been released: `0` when that read
returns `-1`, and `-EIO` otherwise.  The call does return once a loop test
finds the deadline reached. -/
theorem C3_final_read_decides (k : Kernel) (env : Env) (cpu : Nat) (s : State)
    (hmap : s.gcr_base ≠ 0) (hlock : s.boot_lock = false) (hpos : 0 < k.eio) :
    (∀ (fuel : Nat) (r : Int) (s' : State),
      npcm7xx_smp_boot_secondary k env fuel cpu s = some (r, s') →
      ∃ (body : List Effect) (p : Int),
        s'.trace = s.trace ++ body ++ [Effect.spin_unlock, Effect.read_pen p] ∧
        (r = 0 ↔ p = -1) ∧ (r ≠ 0 → r = -(k.eio : Int))) ∧
    (∀ n, deadline_reached k env s n →
      ∃ r s', npcm7xx_smp_boot_secondary k env (n + 1) cpu s = some (r, s')) := by
  refine ⟨?_, fun n hn => boot_secondary_returns k env cpu s n hmap hlock hn⟩
  intro fuel r s' hret
  obtain ⟨l, p, ht, _, hr, _⟩ := boot_secondary_shape k env fuel cpu s r s' hmap hret
  refine ⟨prologue k cpu s ++ l, p, by simp [ht], ?_, ?_⟩
  · by_cases hp : p = -1
    · simp [hr, hp]
    · simp only [hr, ne_eq, hp, not_false_eq_true, if_true, iff_false]
      omega
  · intro hne
    by_cases hp : p = -1
    · simp [hr, hp] at hne
    · simp [hr, hp]

/-- C3 as amended, at a concrete input: the late confirmation of the
counterexample; the call returns within two loop tests. -/
theorem C3_final_read_decides_witness :
    (∀ (fuel : Nat) (r : Int) (s' : State),
      npcm7xx_smp_boot_secondary kernel0 env_late fuel 1 mapped_state = some (r, s') →
      ∃ (body : List Effect) (p : Int),
        s'.trace = mapped_state.trace ++ body ++ [Effect.spin_unlock, Effect.read_pen p] ∧
        (r = 0 ↔ p = -1) ∧ (r ≠ 0 → r = -(kernel0.eio : Int))) ∧
    ∃ r s', npcm7xx_smp_boot_secondary kernel0 env_late (1 + 1) 1 mapped_state = some (r, s') :=
  ⟨(C3_final_read_decides kernel0 env_late 1 mapped_state (by decide) rfl (by decide)).1,
   (C3_final_read_decides kernel0 env_late 1 mapped_state (by decide) rfl (by decide)).2 1
     (by decide)⟩

/-! ## C4: no early timeout -/

/-- A tick count at or after the deadline, and less than `2^31` ticks after
it, fails the `time_before` test. -/
theorem time_before_false_of_reached (t0 t hz : Nat) (h1 : t0 + hz ≤ t)
    (h2 : t < t0 + hz + 2147483648) :
    time_before (t % WORD) ((t0 % WORD + hz * 1) % WORD) = false := by
  simp only [time_before, WORD, decide_eq_false_iff_not]
  omega

/-- A tick count not before the start that fails the `time_before` test is at
or after the deadline, for a window of at most `2^31` ticks. -/
theorem reached_of_time_before_false (t0 t hz : Nat) (h0 : t0 ≤ t) (hhz : hz ≤ 2147483648)
    (h : time_before (t % WORD) ((t0 % WORD + hz * 1) % WORD) = false) :
    t0 + hz ≤ t := by
  simp only [time_before, WORD, decide_eq_false_iff_not] at h
  omega

/-- On a clock that never runs backwards, advances by less than `2^31` ticks
between two reads, and reaches the deadline at some read, one of the loop
tests of a call started in `s` finds the deadline reached. -/
theorem deadline_reached_of_clock (k : Kernel) (env : Env) (s : State)
    (hmono : ∀ i j, i ≤ j → env.clock i ≤ env.clock j)
    (hstep : ∀ i, env.clock (i + 1) < env.clock i + 2147483648)
    (hreach : ∃ n, env.clock s.jreads + k.HZ ≤ env.clock n) :
    ∃ n, deadline_reached k env s n := by
  have hex : ∃ m, env.clock s.jreads + k.HZ ≤ env.clock (s.jreads + 1 + m) := by
    obtain ⟨N, hN⟩ := hreach
    refine ⟨N, le_trans hN (hmono _ _ (by omega))⟩
  classical
  refine ⟨Nat.find hex, ?_⟩
  have hle := Nat.find_spec hex
  have hlt : env.clock (s.jreads + 1 + Nat.find hex) < env.clock s.jreads + k.HZ + 2147483648 := by
    rcases Nat.eq_zero_or_pos (Nat.find hex) with h0 | hpos
    · rw [h0]
      have := hstep s.jreads
      simp only [Nat.add_zero]
      omega
    · have hprev := Nat.find_min hex (Nat.sub_lt hpos Nat.one_pos)
      have hs := hstep (s.jreads + 1 + (Nat.find hex - 1))
      have he : s.jreads + 1 + (Nat.find hex - 1) + 1 = s.jreads + 1 + Nat.find hex := by omega
      rw [he] at hs
      omega
  exact time_before_false_of_reached _ _ _ hle hlt

/-- A returning call on a mapped block, made with a stored id other than `-1`
while nobody else stores to `pen_release`, returns `-EIO`, and its last read
of the tick counter, the loop test that ended the loop, is not before the
deadline. -/
theorem boot_secondary_silent (k : Kernel) (env : Env) (fuel cpu : Nat) (s : State)
    (r : Int) (s' : State)
    (hmap : s.gcr_base ≠ 0) (hid : toInt32 (k.cpu_logical_map cpu) ≠ -1)
    (hhz : k.HZ ≤ 2147483648)
    (hmono : ∀ i j, i ≤ j → env.clock i ≤ env.clock j)
    (hquiet : ∀ n, env.pen n = none)
    (hret : npcm7xx_smp_boot_secondary k env fuel cpu s = some (r, s')) :
    r = -(k.eio : Int) ∧ env.clock s.jreads + k.HZ ≤ env.clock (s'.jreads - 1) := by
  have hlock := boot_secondary_lock_free k env fuel cpu s r s' hmap hret
  rw [boot_secondary_eq k env fuel cpu s hmap hlock] at hret
  cases hp : poll env (timeout_of k env s) fuel (loop_entry k env cpu s) with
  | none => simp [hp] at hret
  | some sp =>
    rw [hp] at hret
    simp only [Option.map_some', Option.some.injEq] at hret
    have hpen : (loop_entry k env cpu s).pen_release = toInt32 (k.cpu_logical_map cpu) := by
      simp [loop_entry, emit, npcm7xx_write_pen_release, iowrite32, read_jiffies]
    have hj : (loop_entry k env cpu s).jreads = s.jreads + 1 := by
      simp [loop_entry, emit, npcm7xx_write_pen_release, iowrite32, read_jiffies]
    obtain ⟨hkeep, htime⟩ := poll_silent env _ hquiet fuel _ sp (by rw [hpen]; exact hid) hp
    obtain ⟨_, _, _, _, hlt, _⟩ := poll_frame env _ fuel _ sp hp
    rw [hj] at hlt
    simp only [loop_exit, spin_unlock, read_pen_release, emit, hquiet, Option.getD_none,
      Prod.mk.injEq] at hret
    obtain ⟨hr, hs⟩ := hret
    subst hs
    refine ⟨?_, ?_⟩
    · rw [← hr, hkeep, hpen, if_pos hid]
    · simp only
      exact reached_of_time_before_false _ _ _ (hmono _ _ (by omega)) hhz htime

/-- C4: with the block mapped, the lock free and a non-negative id to store,
on a tick counter that never runs backwards, advances by less than `2^31`
ticks between two reads and reaches the deadline, with `HZ` at most `2^31`
and nobody else storing to `pen_release`: the call returns, the value is
`-EIO`, and the tick count at the loop test that ended the loop is at least
the tick count read at `timeout = jiffies + HZ` plus `HZ`.  The same holds of
every returning run, whatever bound on loop tests was given. -/
theorem C4_timeout_not_early (k : Kernel) (env : Env) (cpu : Nat) (s : State)
    (hmap : s.gcr_base ≠ 0) (hlock : s.boot_lock = false)
    (hid : 0 ≤ toInt32 (k.cpu_logical_map cpu))
    (hhz : k.HZ ≤ 2147483648)
    (hmono : ∀ i j, i ≤ j → env.clock i ≤ env.clock j)
    (hstep : ∀ i, env.clock (i + 1) < env.clock i + 2147483648)
    (hreach : ∃ n, env.clock s.jreads + k.HZ ≤ env.clock n)
    (hquiet : ∀ n, env.pen n = none) :
    (∃ fuel s', npcm7xx_smp_boot_secondary k env fuel cpu s = some (-(k.eio : Int), s') ∧
      env.clock s.jreads + k.HZ ≤ env.clock (s'.jreads - 1)) ∧
    (∀ fuel r s', npcm7xx_smp_boot_secondary k env fuel cpu s = some (r, s') →
      r = -(k.eio : Int) ∧ env.clock s.jreads + k.HZ ≤ env.clock (s'.jreads - 1)) := by
  have hid' : toInt32 (k.cpu_logical_map cpu) ≠ -1 := by omega
  have hall : ∀ fuel r s', npcm7xx_smp_boot_secondary k env fuel cpu s = some (r, s') →
      r = -(k.eio : Int) ∧ env.clock s.jreads + k.HZ ≤ env.clock (s'.jreads - 1) :=
    fun fuel r s' h => boot_secondary_silent k env fuel cpu s r s' hmap hid' hhz hmono hquiet h
  refine ⟨?_, hall⟩
  obtain ⟨n, hn⟩ := deadline_reached_of_clock k env s hmono hstep hreach
  obtain ⟨r, s', h⟩ := boot_secondary_returns k env cpu s n hmap hlock hn
  obtain ⟨hr, hc⟩ := hall _ r s' h
  exact ⟨n + 1, s', by rw [h, hr], hc⟩

/-- C4 at a concrete input: core `1`, `HZ = 100`, 50 ticks between reads of the
tick counter, nobody storing to `pen_release`. -/
theorem C4_timeout_not_early_witness :
    (∃ fuel s', npcm7xx_smp_boot_secondary kernel0 env_silent fuel 1 mapped_state =
        some (-(kernel0.eio : Int), s') ∧
      env_silent.clock mapped_state.jreads + kernel0.HZ ≤ env_silent.clock (s'.jreads - 1)) ∧
    (∀ fuel r s', npcm7xx_smp_boot_secondary kernel0 env_silent fuel 1 mapped_state =
        some (r, s') →
      r = -(kernel0.eio : Int) ∧
      env_silent.clock mapped_state.jreads + kernel0.HZ ≤ env_silent.clock (s'.jreads - 1)) :=
  C4_timeout_not_early kernel0 env_silent 1 mapped_state (by decide) rfl (by decide) (by decide)
    (fun _ _ h => Nat.mul_le_mul_left 50 h)
    (fun i => by show 50 * (i + 1) < 50 * i + 2147483648; omega)
    ⟨2, by decide⟩ (fun _ => rfl)

/-! ## C5: the lock is released on every exit path -/

/-- The three ways out of `npcm7xx_smp_boot_secondary`, each at a concrete
input, with the value returned and the lock afterwards: the early return on an
unmapped block, the success after an observed `-1`, and the timeout. -/
theorem boot_secondary_exit_paths :
    (npcm7xx_smp_boot_secondary kernel0 env_silent 3 1 boot_state).map
      (fun x => (x.1, x.2.boot_lock)) = some (-5, false) ∧
    (npcm7xx_smp_boot_secondary kernel0 env_confirm 3 1 mapped_state).map
      (fun x => (x.1, x.2.boot_lock)) = some (0, false) ∧
    (npcm7xx_smp_boot_secondary kernel0 env_silent 3 1 mapped_state).map
      (fun x => (x.1, x.2.boot_lock)) = some (-5, false) := by
  decide


/-- C5: a call of `npcm7xx_smp_boot_secondary` started with `boot_lock` free
returns as soon as one of its loop tests finds the deadline reached, and
whenever it returns, whatever the path (early `-EIO`, success, timeout), it
leaves the lock free; a second call for any other core made in the state the
first one left then gets the lock (its first action is `spin_lock`, when the
block is mapped), returns in its turn once one of its loop tests finds its
deadline reached, and leaves the lock free again. -/
theorem C5_lock_free_on_return (k : Kernel) (env : Env) (cpu : Nat) (s : State)
    (hlock : s.boot_lock = false) :
    (∀ n, deadline_reached k env s n →
      ∃ r s', npcm7xx_smp_boot_secondary k env (n + 1) cpu s = some (r, s')) ∧
    ∀ (fuel : Nat) (r : Int) (s' : State),
      npcm7xx_smp_boot_secondary k env fuel cpu s = some (r, s') →
      s'.boot_lock = false ∧
      ∀ (cpu2 n : Nat), deadline_reached k env s' n →
        ∃ r2 s2, npcm7xx_smp_boot_secondary k env (n + 1) cpu2 s' = some (r2, s2) ∧
          s2.boot_lock = false ∧
          (s'.gcr_base ≠ 0 → ∃ rest, s2.trace = s'.trace ++ Effect.spin_lock :: rest) := by
  refine ⟨fun n hn => boot_secondary_returns_any k env cpu s n hlock hn, ?_⟩
  intro fuel r s' hret
  have hfree : s'.boot_lock = false := boot_secondary_unlocks k env fuel cpu s r s' hlock hret
  refine ⟨hfree, ?_⟩
  intro cpu2 n hreach
  obtain ⟨r2, s2, h2⟩ := boot_secondary_returns_any k env cpu2 s' n hfree hreach
  refine ⟨r2, s2, h2, boot_secondary_unlocks k env (n + 1) cpu2 s' r2 s2 hfree h2, fun hmap' => ?_⟩
  obtain ⟨l, p, ht, _⟩ := boot_secondary_shape k env (n + 1) cpu2 s' r2 s2 hmap' h2
  refine ⟨(prologue k cpu2 s').tail ++ l ++ [Effect.spin_unlock, Effect.read_pen p], ?_⟩
  rw [ht]
  simp [prologue]

/-- C5 at a concrete input: core `1` times out from `mapped_state`, and a
call for core `2` made next returns with the lock free again. -/
theorem C5_lock_free_on_return_witness :
    timed_out_state.boot_lock = false ∧
    ∃ r2 s2, npcm7xx_smp_boot_secondary kernel0 env_silent 2 2 timed_out_state = some (r2, s2) ∧
      s2.boot_lock = false ∧
      (timed_out_state.gcr_base ≠ 0 →
        ∃ rest, s2.trace = timed_out_state.trace ++ Effect.spin_lock :: rest) :=
  ⟨((C5_lock_free_on_return kernel0 env_silent 1 mapped_state rfl).2 3 (-5) timed_out_state
      rfl).1,
   ((C5_lock_free_on_return kernel0 env_silent 1 mapped_state rfl).2 3 (-5) timed_out_state
      rfl).2 2 1 (by decide)⟩

/-! ## C6: the scratch-pad register -/

/-- What a returning call leaves in the registers and in the trace: the
register at `gcr_base + NPCM7XX_SCRPAD_REG` holds the low 32 bits of the
physical address of the entry point, every other register is as before, and
the only `iowrite32` among the actions added is that one. -/
theorem boot_secondary_registers (k : Kernel) (env : Env) (fuel cpu : Nat) (s : State)
    (r : Int) (s' : State) (hmap : s.gcr_base ≠ 0)
    (hret : npcm7xx_smp_boot_secondary k env fuel cpu s = some (r, s')) :
    s'.mmio (s.gcr_base + NPCM7XX_SCRPAD_REG) = k.startup_phys % WORD ∧
    (∀ a, a ≠ s.gcr_base + NPCM7XX_SCRPAD_REG → s'.mmio a = s.mmio a) ∧
    ∃ added, s'.trace = s.trace ++ added ∧
      ∀ v a, Effect.iowrite32 v a ∈ added →
        a = s.gcr_base + NPCM7XX_SCRPAD_REG ∧ v = k.startup_phys % WORD := by
  obtain ⟨l, p, ht, hl, _, _, _, _, _, hm, _⟩ :=
    boot_secondary_shape k env fuel cpu s r s' hmap hret
  refine ⟨by simp [hm], fun a ha => by simp [hm, ha],
    prologue k cpu s ++ l ++ [Effect.spin_unlock, Effect.read_pen p], by simp [ht], ?_⟩
  intro v a hmem
  simp only [prologue, List.mem_append, List.mem_cons, List.mem_singleton, reduceCtorEq,
    Effect.iowrite32.injEq, false_or, or_false, List.not_mem_nil] at hmem
  rcases hmem with ⟨hv, ha⟩ | hmem
  · exact ⟨ha, hv⟩
  · have := hl _ hmem
    simp [is_poll_effect] at this

/-- C6: with the block mapped, a call of `npcm7xx_smp_boot_secondary` started
with the lock free returns once a loop test finds the deadline reached, and
then the register at offset `0x13c` of the block holds the low 32 bits of the
physical address of the entry point and every other register is as before.
The same holds of every returning call, with whatever result (success or
timeout) and whatever bound on loop tests, and the only `iowrite32` the call
performed is that one. -/
theorem C6_scratchpad_holds_entry (k : Kernel) (env : Env) (cpu : Nat) (s : State)
    (hmap : s.gcr_base ≠ 0) :
    NPCM7XX_SCRPAD_REG = 0x13c ∧
    (s.boot_lock = false → ∀ n, deadline_reached k env s n →
      ∃ r s', npcm7xx_smp_boot_secondary k env (n + 1) cpu s = some (r, s') ∧
        s'.mmio (s.gcr_base + NPCM7XX_SCRPAD_REG) = k.startup_phys % WORD ∧
        (∀ a, a ≠ s.gcr_base + NPCM7XX_SCRPAD_REG → s'.mmio a = s.mmio a)) ∧
    ∀ (fuel : Nat) (r : Int) (s' : State),
      npcm7xx_smp_boot_secondary k env fuel cpu s = some (r, s') →
      s'.mmio (s.gcr_base + NPCM7XX_SCRPAD_REG) = k.startup_phys % WORD ∧
      (∀ a, a ≠ s.gcr_base + NPCM7XX_SCRPAD_REG → s'.mmio a = s.mmio a) ∧
      ∃ added, s'.trace = s.trace ++ added ∧
        ∀ v a, Effect.iowrite32 v a ∈ added →
          a = s.gcr_base + NPCM7XX_SCRPAD_REG ∧ v = k.startup_phys % WORD := by
  refine ⟨rfl, ?_, fun fuel r s' hret => boot_secondary_registers k env fuel cpu s r s' hmap hret⟩
  intro hlock n hn
  obtain ⟨r, s', hret⟩ := boot_secondary_returns k env cpu s n hmap hlock hn
  obtain ⟨h1, h2, _⟩ := boot_secondary_registers k env (n + 1) cpu s r s' hmap hret
  exact ⟨r, s', hret, h1, h2⟩

/-- C6 at the scenario of the specification: entry point `0x8000_1000`, core
`1`, block mapped at `0xF0800000`.  The call returns within two loop tests,
both when the secondary core never answers (timeout) and when it answers
(success), and each time the register at `0xF0800000 + 0x13c` holds
`0x8000_1000` and the other registers are as before. -/
theorem C6_scratchpad_holds_entry_witness :
    (∃ r s', npcm7xx_smp_boot_secondary kernel0 env_silent (1 + 1) 1 mapped_state =
        some (r, s') ∧
      s'.mmio (0xF0800000 + 0x13c) = 0x80001000 ∧
      (∀ a, a ≠ 0xF0800000 + 0x13c → s'.mmio a = mapped_state.mmio a)) ∧
    (∃ r s', npcm7xx_smp_boot_secondary kernel0 env_confirm (1 + 1) 1 mapped_state =
        some (r, s') ∧
      s'.mmio (0xF0800000 + 0x13c) = 0x80001000 ∧
      (∀ a, a ≠ 0xF0800000 + 0x13c → s'.mmio a = mapped_state.mmio a)) :=
  ⟨(C6_scratchpad_holds_entry kernel0 env_silent 1 mapped_state (by decide)).2.1 rfl 1
      (by decide),
   (C6_scratchpad_holds_entry kernel0 env_confirm 1 mapped_state (by decide)).2.1 rfl 1
      (by decide)⟩

/-! ## C7: the two failure values -/

/-- C7 as stated fails: with `EIO = 5`, the call on the unmapped block and the
call that times out on the mapped block both return `-5`. -/
theorem C7_counterexample_same_value :
    (npcm7xx_smp_boot_secondary kernel0 env_silent 3 1 boot_state).map Prod.fst = some (-5) ∧
    (npcm7xx_smp_boot_secondary kernel0 env_silent 3 1 mapped_state).map Prod.fst = some (-5) := by
  decide

/-- C7 as amended: the call on an unmapped block and a call on a mapped block
whose final read of `pen_release` does not find `-1` return the same value,
`-EIO`; with `EIO` positive that value differs from the success value `0`. -/
theorem C7_failures_share_value (k : Kernel) (env env2 : Env) (fuel fuel2 cpu cpu2 : Nat)
    (s s2 : State) (r2 : Int) (s2' : State)
    (hnull : s.gcr_base = 0) (hmap : s2.gcr_base ≠ 0)
    (hret : npcm7xx_smp_boot_secondary k env2 fuel2 cpu2 s2 = some (r2, s2'))
    (hnot : s2'.pen_release ≠ -1) (hpos : 0 < k.eio) :
    (npcm7xx_smp_boot_secondary k env fuel cpu s).map Prod.fst = some (-(k.eio : Int)) ∧
    r2 = -(k.eio : Int) ∧ r2 ≠ 0 := by
  obtain ⟨l, p, _, _, hr, hp, _⟩ := boot_secondary_shape k env2 fuel2 cpu2 s2 r2 s2' hmap hret
  have hp' : p ≠ -1 := by rw [← hp]; exact hnot
  rw [if_pos hp'] at hr
  refine ⟨by simp [boot_secondary_unmapped k env fuel cpu s hnull], hr, ?_⟩
  rw [hr]
  omega

/-- C7 as amended, at a concrete input. -/
theorem C7_failures_share_value_witness :
    (npcm7xx_smp_boot_secondary kernel0 env_silent 0 1 boot_state).map Prod.fst =
      some (-(kernel0.eio : Int)) ∧
    (-5 : Int) = -(kernel0.eio : Int) ∧ (-5 : Int) ≠ 0 :=
  C7_failures_share_value kernel0 env_silent env_silent 0 3 1 1 boot_state mapped_state (-5)
    timed_out_state rfl (by decide) rfl (by decide) (by decide)

/-! ## C8: the secondary side -/

/-- C8: run with `boot_lock` free, `npcm7xx_smp_secondary_init` returns, leaves
`-1` in `pen_release` and the lock free, touches nothing else, and performs
exactly: store of `-1`, store-store barrier, data-cache flush, outer-cache
clean, lock acquire, lock release.  The core id plays no part: any other id
gives the same final state and the same actions. -/
theorem C8_secondary_init_ignores_cpu (cpu cpu' : Nat) (s : State)
    (hlock : s.boot_lock = false) :
    npcm7xx_smp_secondary_init cpu s =
      some { s with
               pen_release := -1, boot_lock := false,
               trace := s.trace ++ [Effect.store_pen (-1), Effect.smp_wmb,
                 Effect.flush_dcache_pen, Effect.outer_clean_pen, Effect.spin_lock,
                 Effect.spin_unlock] } ∧
    npcm7xx_smp_secondary_init cpu' s = npcm7xx_smp_secondary_init cpu s := by
  refine ⟨?_, rfl⟩
  simp [npcm7xx_smp_secondary_init, npcm7xx_write_pen_release, spin_lock, spin_unlock, emit,
    hlock]

/-- C8 at a concrete input: cores `1` and `7` confirming from the state left
by a timed-out call (`pen_release = 1`). -/
theorem C8_secondary_init_ignores_cpu_witness :
    npcm7xx_smp_secondary_init 1 timed_out_state =
      some { timed_out_state with
               pen_release := -1, boot_lock := false,
               trace := timed_out_state.trace ++ [Effect.store_pen (-1), Effect.smp_wmb,
                 Effect.flush_dcache_pen, Effect.outer_clean_pen, Effect.spin_lock,
                 Effect.spin_unlock] } ∧
    npcm7xx_smp_secondary_init 7 timed_out_state = npcm7xx_smp_secondary_init 1 timed_out_state :=
  C8_secondary_init_ignores_cpu 1 7 timed_out_state rfl

/-! ## C9: the two cores and the lock -/

/-- The invariant holds at the start when the lock is free. -/
theorem inv_start (s : State) (hlock : s.boot_lock = false) : Inv (start s) := by
  constructor <;> simp [start, boot_holds, init_holds, init_passed_lock, hlock]

/-- The function `spin_lock` either finds the lock held and does not return, or
finds it free and takes it. -/
theorem spin_lock_spec (s : State) :
    (s.boot_lock = true ∧ spin_lock s = none) ∨
    (s.boot_lock = false ∧ ∃ s', spin_lock s = some s' ∧ s'.boot_lock = true) := by
  cases h : s.boot_lock <;> simp [spin_lock, h, emit]

/-- A statement of the primary core keeps the invariant. -/
theorem inv_boot_step (k : Kernel) (env : Env) (cpu : Nat) (σ : System) (h : Inv σ) :
    Inv (boot_step k env cpu σ) := by
  obtain ⟨h1, h2, h3, h4, h5, h6, h7⟩ := h
  cases hb : σ.boot with
  | lock =>
    simp only [boot_step, hb]
    rcases spin_lock_spec σ.shared with ⟨hl, hn⟩ | ⟨hl, s', hs, hl'⟩
    · rw [hn]; exact ⟨h1, h2, h3, h4, h5, h6, h7⟩
    · rw [hs]
      constructor <;> simp_all [boot_holds, boot_past_unlock]
  | returned r =>
    simp only [boot_step, hb]
    exact ⟨h1, h2, h3, h4, h5, h6, h7⟩
  | _ =>
    simp only [boot_step, hb]
    (try split) <;> constructor <;>
      simp_all [boot_holds, boot_past_unlock, emit, iowrite32, read_jiffies, read_pen_release,
        spin_unlock]

/-- A statement of the secondary core keeps the invariant. -/
theorem inv_init_step (cpu2 : Nat) (σ : System) (h : Inv σ) :
    Inv (init_step cpu2 σ) := by
  obtain ⟨h1, h2, h3, h4, h5, h6, h7⟩ := h
  cases hi : σ.init with
  | lock =>
    simp only [init_step, hi]
    rcases spin_lock_spec σ.shared with ⟨hl, hn⟩ | ⟨hl, s', hs, hl'⟩
    · rw [hn]; exact ⟨h1, h2, h3, h4, h5, h6, h7⟩
    · rw [hs]
      constructor <;> simp_all [init_holds, init_passed_lock, boot_past_unlock]
  | returned =>
    simp only [init_step, hi]
    exact ⟨h1, h2, h3, h4, h5, h6, h7⟩
  | _ =>
    simp only [init_step, hi]
    (try split) <;> constructor <;>
      simp_all [init_holds, init_passed_lock, boot_past_unlock, emit, spin_unlock]

/-- The invariant holds after every schedule. -/
theorem inv_run (k : Kernel) (env : Env) (cpu cpu2 : Nat) (sched : List Core) :
    ∀ σ : System, Inv σ → Inv (run k env cpu cpu2 sched σ) := by
  induction sched with
  | nil => intro σ h; exact h
  | cons c rest ih =>
    intro σ h
    simp only [run, List.foldl_cons]
    apply ih
    cases c
    · exact inv_boot_step k env cpu σ h
    · exact inv_init_step cpu2 σ h

/-- C9: one `npcm7xx_smp_boot_secondary` on the primary core and one
`npcm7xx_smp_secondary_init` on the secondary core, started with the lock
free, the secondary core entering its function only after the wake signal,
their statements interleaved in any order `sched`.  In the state reached, if
the secondary core has got past its `spin_lock` (so also if it has returned)
then the primary core has executed its `spin_unlock`, which it does only
after its loop ended on an observed `-1` or a failed time test; and the two
cores are never both between their `spin_lock` and `spin_unlock`. -/
theorem C9_secondary_waits_for_release (k : Kernel) (env : Env) (cpu cpu2 : Nat)
    (sched : List Core) (s : State) (hlock : s.boot_lock = false) :
    (init_passed_lock (run k env cpu cpu2 sched (start s)).init = true →
      (run k env cpu cpu2 sched (start s)).boot_released = true ∧
      (run k env cpu cpu2 sched (start s)).loop_ended = true) ∧
    ((run k env cpu cpu2 sched (start s)).init = InitPc.returned →
      (run k env cpu cpu2 sched (start s)).boot_released = true) ∧
    (boot_holds (run k env cpu cpu2 sched (start s)).boot &&
      init_holds (run k env cpu cpu2 sched (start s)).init) = false := by
  have h := inv_run k env cpu cpu2 sched (start s) (inv_start s hlock)
  refine ⟨fun hp => ⟨h.passed hp, (h.released (h.passed hp)).2⟩, fun hr => ?_, h.exclusive⟩
  apply h.passed
  rw [hr]
  rfl

/-- C9 at a concrete input: in `sched_confirm` the secondary core returns, and
the primary core has released the lock by then. -/
theorem C9_secondary_waits_for_release_witness :
    (run kernel0 env_silent 1 1 sched_confirm (start mapped_state)).init = InitPc.returned ∧
    (run kernel0 env_silent 1 1 sched_confirm (start mapped_state)).boot_released = true :=
  ⟨by decide,
   (C9_secondary_waits_for_release kernel0 env_silent 1 1 sched_confirm mapped_state rfl).2.1
     (by decide)⟩

/-! ## C10: order of the actions -/

/-- Every action of the poll loop is a load-load barrier, a read of
`pen_release` or `udelay(10)`. -/
theorem poll_effect_cases (e : Effect) (h : is_poll_effect e = true) :
    e = Effect.smp_rmb ∨ (∃ v, e = Effect.read_pen v) ∨ e = Effect.udelay 10 := by
  cases e <;> simp [is_poll_effect] at h ⊢
  exact h

/-- No action of the poll loop is a wake signal. -/
theorem poll_effect_not_wake (e : Effect) (h : is_poll_effect e = true) : is_wake e = false := by
  cases e <;> simp [is_poll_effect, is_wake] at h ⊢

/-- C10 as stated fails: on a kernel whose logical map sends core `1` to the
hardware id `0`, the call for core `1` stores `0` into `pen_release` and
sends the wake signal to core `1`; the id stored and the id woken differ, so
they are not both the `core_id` of the call. -/
theorem C10_counterexample_stored_id :
    (npcm7xx_smp_boot_secondary kernel_swapped env_silent 3 1 mapped_state).map
      (fun x => x.2.trace.take 8) =
      some [Effect.spin_lock, Effect.store_pen 0, Effect.smp_wmb, Effect.flush_dcache_pen,
        Effect.outer_clean_pen, Effect.iowrite32 0x80001000 0xF080013c, Effect.smp_rmb,
        Effect.wakeup_ipi 1] := by
  decide

/-- C10 as amended: a call of `npcm7xx_smp_boot_secondary(cpu, _)` with the
block mapped and the lock free returns once a loop test finds the deadline
reached, and the actions of a returning call are, in order: lock acquire;
store of `cpu_logical_map(cpu)` (as an `int`) into `pen_release`; store-store
barrier; data-cache flush; outer-cache clean; write of the entry address to
the register at `gcr_base + 0x13c`; load-load barrier; wake signal to `cpu`;
then only load-load barriers, reads of `pen_release` and `udelay(10)`; then
the lock release and one last read of `pen_release`.  Exactly one wake signal
is among them, and it lies between the acquire and the release. -/
theorem C10_action_order (k : Kernel) (env : Env) (cpu : Nat) (s : State)
    (hmap : s.gcr_base ≠ 0) (hlock : s.boot_lock = false) :
    (∀ n, deadline_reached k env s n →
      ∃ r s', npcm7xx_smp_boot_secondary k env (n + 1) cpu s = some (r, s')) ∧
    ∀ (fuel : Nat) (r : Int) (s' : State),
      npcm7xx_smp_boot_secondary k env fuel cpu s = some (r, s') →
      ∃ (l : List Effect) (p : Int),
        s'.trace = s.trace ++
          [Effect.spin_lock, Effect.store_pen (toInt32 (k.cpu_logical_map cpu)), Effect.smp_wmb,
           Effect.flush_dcache_pen, Effect.outer_clean_pen,
           Effect.iowrite32 (k.startup_phys % WORD) (s.gcr_base + 0x13c),
           Effect.smp_rmb, Effect.wakeup_ipi cpu] ++ l ++
          [Effect.spin_unlock, Effect.read_pen p] ∧
        (∀ e ∈ l, e = Effect.smp_rmb ∨ (∃ v, e = Effect.read_pen v) ∨ e = Effect.udelay 10) ∧
        (s'.trace.drop s.trace.length).filter is_wake = [Effect.wakeup_ipi cpu] := by
  refine ⟨fun n hn => boot_secondary_returns k env cpu s n hmap hlock hn, ?_⟩
  intro fuel r s' hret
  obtain ⟨l, p, ht, hl, _⟩ := boot_secondary_shape k env fuel cpu s r s' hmap hret
  refine ⟨l, p, by simpa [prologue, NPCM7XX_SCRPAD_REG] using ht,
    fun e he => poll_effect_cases e (hl e he), ?_⟩
  have hnil : l.filter is_wake = [] := by
    rw [List.filter_eq_nil_iff]
    intro e he
    simp [poll_effect_not_wake e (hl e he)]
  rw [ht]
  simp [prologue, List.filter_cons, is_wake, hnil]

/-- C10 as amended, at a concrete input: core `1` with the identity map,
timing out after one poll. -/
theorem C10_action_order_witness :
    ∃ (l : List Effect) (p : Int),
      timed_out_state.trace = mapped_state.trace ++
        [Effect.spin_lock, Effect.store_pen (toInt32 (kernel0.cpu_logical_map 1)),
         Effect.smp_wmb, Effect.flush_dcache_pen, Effect.outer_clean_pen,
         Effect.iowrite32 (kernel0.startup_phys % WORD) (mapped_state.gcr_base + 0x13c),
         Effect.smp_rmb, Effect.wakeup_ipi 1] ++ l ++
        [Effect.spin_unlock, Effect.read_pen p] ∧
      (∀ e ∈ l, e = Effect.smp_rmb ∨ (∃ v, e = Effect.read_pen v) ∨ e = Effect.udelay 10) ∧
      (timed_out_state.trace.drop mapped_state.trace.length).filter is_wake =
        [Effect.wakeup_ipi 1] :=
  (C10_action_order kernel0 env_silent 1 mapped_state (by decide) rfl).2 3 (-5)
    timed_out_state rfl

end Npcm
